import Mathlib

/-!
# Shallow embedding of the `fastapi-auth` token/credential core

This file embeds the data model (`src/app/models.py`) and the operations of
the authentication module (`src/app/auth.py`) and its HTTP endpoints
(`src/app/auth_routes.py`) as executable Lean definitions, and proves the
frozen claims about them.

Modelling conventions:
* timestamps are `Nat` (seconds); `datetime.now(timezone.utc)` becomes an
  explicit `now` parameter threaded to each operation;
* the SQLAlchemy session is a pure `DB` value (lists of rows); a query with
  `.first()` becomes `List.find?`, an `UPDATE` becomes a pure list rewrite
  returning the new `DB`;
* random values produced inside an operation (bcrypt salts,
  `secrets.token_urlsafe`) become explicit parameters;
* a Python function that can raise is embedded as `Except`; an uncaught
  exception propagating out of an endpoint is the `Failure.uncaught` case.
-/

namespace FastapiAuth

/-! ## Data model (src/app/models.py) -/

/-- Row of the `users` table (`class User` in models.py). -/
structure User where
  id : Nat
  email : String
  username : String
  hashed_password : String
  is_active : Bool
  is_verified : Bool
  created_at : Nat
  deriving DecidableEq, Repr

/-- Row of the `refresh_tokens` table (`class RefreshToken` in models.py). -/
structure RefreshToken where
  id : Nat
  user_id : Nat
  token : String
  expires_at : Nat
  created_at : Nat
  is_revoked : Bool
  revoked_at : Option Nat
  revoked_reason : Option String
  user_agent : Option String
  ip_address : Option String
  deriving DecidableEq, Repr

/-- The relational store: both tables. -/
structure DB where
  users : List User
  refresh_tokens : List RefreshToken
  deriving DecidableEq, Repr

/-- The `token` column carries a UNIQUE constraint (models.py line 35). -/
def tokensUnique (db : DB) : Prop :=
  db.refresh_tokens.Pairwise (fun a b => a.token ≠ b.token)

instance (db : DB) : Decidable (tokensUnique db) :=
  List.instDecidablePairwise _

/-! ## Password hashing (passlib `CryptContext(schemes=["bcrypt"])`)

`pwd_context.hash` / `pwd_context.verify` are modelled from passlib's bcrypt
backend:
* the secret is UTF-8 encoded and truncated to 72 bytes (bcrypt's blowfish
  key limit; passlib's default `truncate_error=False` truncates silently);
* `hash` emits a modular-crypt string `$2b$12$<salt><checksum>`; the per-call
  random salt is an explicit parameter;
* `verify` first identifies the hash string; an unrecognizable string raises
  `UnknownHashError` (it is NOT mapped to `False`), which we embed as
  `Except.error`;
* the checksum is modelled as the truncated key itself (an injective stand-in
  for the bcrypt cipher, which is injective in the key for a fixed salt and
  cost; one-wayness is irrelevant to the claims), each byte stored as one
  character of the hash string.
-/

/-- Standard UTF-8 encoding of one scalar value (RFC 3629). -/
def utf8Bytes (c : Char) : List Nat :=
  let n := c.toNat
  if n < 128 then [n]
  else if n < 2048 then [192 + n / 64, 128 + n % 64]
  else if n < 65536 then [224 + n / 4096, 128 + n / 64 % 64, 128 + n % 64]
  else [240 + n / 262144, 128 + n / 4096 % 64, 128 + n / 64 % 64, 128 + n % 64]

/-- UTF-8 bytes of a whole string (Python `password.encode("utf-8")`). -/
def strBytes (s : String) : List Nat :=
  s.data.flatMap utf8Bytes

/-- bcrypt uses at most the first 72 bytes of the secret. -/
def bcryptKey (password : String) : List Nat :=
  (strBytes password).take 72

/-- One byte rendered as one character of the hash string. -/
def byteChar (b : Nat) : Char :=
  Char.ofNat b

/-- The modular-crypt bcrypt hash string `$2b$12$<salt char><checksum chars>`
(cost is the context default 12). -/
def bcryptHashString (salt : Nat) (key : List Nat) : String :=
  ⟨'$' :: '2' :: 'b' :: '$' :: '1' :: '2' :: '$' ::
    Char.ofNat (salt % 55296) :: key.map byteChar⟩

/-- passlib error raised when a hash string matches no configured scheme. -/
inductive PasslibError where
  | unknownHash
  deriving DecidableEq, Repr

/-- passlib's hash identification step: recognize a `$2b$12$...` string and
recover (salt, checksum bytes); anything else is unidentifiable. -/
def identifyBcrypt (hash : String) : Option (Nat × List Nat) :=
  match hash.data with
  | '$' :: '2' :: 'b' :: '$' :: '1' :: '2' :: '$' :: saltc :: rest =>
      some (saltc.toNat, rest.map Char.toNat)
  | _ => none

/-- `pwd_context.verify(secret, hash)`: raises `UnknownHashError` on an
unidentifiable hash string, otherwise recomputes the checksum from the
truncated key and compares. -/
def pwd_context_verify (secret hash : String) : Except PasslibError Bool :=
  match identifyBcrypt hash with
  | none => .error .unknownHash
  | some (_, checksum) => .ok (checksum == bcryptKey secret)

/-- `pwd_context.hash(secret)` with the per-call random salt explicit. -/
def pwd_context_hash (secret : String) (salt : Nat) : String :=
  bcryptHashString salt (bcryptKey secret)

/-- auth.py `verify_password`: a bare delegation to `pwd_context.verify`,
with no exception handling. -/
def verify_password (plain_password hashed_password : String) :
    Except PasslibError Bool :=
  pwd_context_verify plain_password hashed_password

/-- auth.py `get_password_hash`: a bare delegation to `pwd_context.hash`. -/
def get_password_hash (password : String) (salt : Nat) : String :=
  pwd_context_hash password salt

/-! ## JWT access tokens (python-jose `jwt.encode` / `jwt.decode`)

A signed token is modelled abstractly: `AccessToken.signed claims secret`
stands for a compact JWS whose HMAC was produced with `secret`; `jwt.decode`
with secret `s` succeeds exactly when `s` equals the signing secret (signature
check) and the `exp` claim has not passed (jose validates `exp` by default and
raises `ExpiredSignatureError ⊆ JWTError` when `exp < now`). `malformed`
stands for any string that is not a well-formed JWS (decode raises
`JWTError`). -/

/-- The claim set `create_access_token` embeds (`sub`, `exp`, `iat`,
`type`). A missing `"sub"` key is `none` (Python `payload.get("sub")`). -/
structure JWTClaims where
  sub : Option String
  exp : Nat
  iat : Nat
  type : String
  deriving DecidableEq, Repr

/-- A bearer token string, as seen by `jwt.decode`. -/
inductive AccessToken where
  | signed (claims : JWTClaims) (secret : Nat)
  | malformed (raw : String)
  deriving DecidableEq, Repr

/-- `jwt.decode(token, secret)`: `none` embeds a raised `JWTError`
(bad signature, malformed structure, or expired `exp`). -/
def jwt_decode (token : AccessToken) (secret now : Nat) : Option JWTClaims :=
  match token with
  | .signed claims s => if s = secret ∧ now ≤ claims.exp then some claims else none
  | .malformed _ => none

/-- auth.py `create_access_token` for a payload `{"sub": username}` (the only
shape the callers use; `sub` is kept optional to cover a missing claim).
`expires_delta` is in minutes; `if expires_delta:` is Python truthiness, so
`some 0` falls back to the configured default `ttl_minutes`. -/
def create_access_token (sub : Option String) (expires_delta : Option Nat)
    (now secret ttl_minutes : Nat) : AccessToken :=
  let expire : Nat :=
    match expires_delta with
    | some d => if d = 0 then now + ttl_minutes * 60 else now + d * 60
    | none => now + ttl_minutes * 60
  .signed { sub := sub, exp := expire, iat := now, type := "access" } secret

/-- auth.py `decode_access_token`: `jwt.decode` with `JWTError ↦ None`. -/
def decode_access_token (token : AccessToken) (secret now : Nat) :
    Option JWTClaims :=
  jwt_decode token secret now

/-! ## Refresh token persistence (auth.py) -/

/-- auth.py `create_refresh_token`: inserts a fresh row (defaults
`is_revoked = False`, `revoked_at = NULL`) and returns the raw token string.
The random `secrets.token_urlsafe(32)` output and the row's primary key are
the explicit `token` / `next_id` parameters. -/
def create_refresh_token (user_id : Nat) (db : DB) (token : String)
    (now refresh_days next_id : Nat) (user_agent ip_address : Option String) :
    String × DB :=
  let expires_at := now + refresh_days * 86400
  let row : RefreshToken :=
    { id := next_id, user_id := user_id, token := token,
      expires_at := expires_at, created_at := now, is_revoked := false,
      revoked_at := none, revoked_reason := none,
      user_agent := user_agent, ip_address := ip_address }
  (token, { db with refresh_tokens := db.refresh_tokens ++ [row] })

/-- The filter of `verify_refresh_token`'s query: exact token match, not
revoked, `expires_at` strictly in the future. -/
def refreshTokenLive (token : String) (now : Nat) (r : RefreshToken) : Bool :=
  r.token == token && r.is_revoked == false && decide (now < r.expires_at)

/-- auth.py `verify_refresh_token`: `.first()` on the filtered query, then
the owning user id, else `None`. -/
def verify_refresh_token (token : String) (db : DB) (now : Nat) : Option Nat :=
  match db.refresh_tokens.find? (refreshTokenLive token now) with
  | some row => some row.user_id
  | none => none

/-- The filter of `revoke_all_user_tokens`'s query. -/
def ownedActive (user_id : Nat) (r : RefreshToken) : Bool :=
  r.user_id == user_id && r.is_revoked == false

/-- auth.py `revoke_all_user_tokens`: flips every non-revoked row of the user
to revoked, stamps `revoked_at`, and counts the rows it touched. -/
def revoke_all_user_tokens (user_id : Nat) (db : DB) (now : Nat) : Nat × DB :=
  let count := (db.refresh_tokens.filter (ownedActive user_id)).length
  let tokens := db.refresh_tokens.map (fun r =>
    if ownedActive user_id r
    then { r with is_revoked := true, revoked_at := some now }
    else r)
  (count, { db with refresh_tokens := tokens })

/-- The first row matching the token (if any) is rewritten to revoked; the
`none` result means no row matched. Helper for `revoke_refresh_token`. -/
def revokeFirst (token : String) (now : Nat) :
    List RefreshToken → Option (List RefreshToken)
  | [] => none
  | r :: rs =>
    if r.token == token then
      some ({ r with is_revoked := true, revoked_at := some now } :: rs)
    else
      match revokeFirst token now rs with
      | some rs' => some (r :: rs')
      | none => none

/-- auth.py `revoke_refresh_token`: `.first()` on the token match; when found,
sets `is_revoked = True` and a fresh `revoked_at` (also when the row was
already revoked) and returns `True`; otherwise `False` with no change. -/
def revoke_refresh_token (token : String) (db : DB) (now : Nat) : Bool × DB :=
  match revokeFirst token now db.refresh_tokens with
  | some ts => (true, { db with refresh_tokens := ts })
  | none => (false, db)

/-! ## Dependencies and endpoint orchestration
(auth.py `get_current_user`, `get_current_active_user`, `authenticate_user`;
auth_routes.py endpoints)

An endpoint outcome is `Except Failure _`: `Failure.http` embeds a raised
`HTTPException`, `Failure.uncaught` embeds an exception that no handler
catches (it surfaces as a generic 500 at the framework boundary). -/

/-- A request failure: an `HTTPException(status_code, detail)` or an
uncaught exception from the passlib layer. -/
inductive Failure where
  | http (statusCode : Nat) (detail : String)
  | uncaught (e : PasslibError)
  deriving DecidableEq, Repr

/-- The `credentials_exception` of `get_current_user`. -/
def credentials_exception : Failure :=
  .http 401 "Could not validate credentials"

/-- auth.py `get_current_user`: decode the bearer JWT (any `JWTError` ↦
401), require a `sub` claim, then look the username up; a missing user is
the same 401. -/
def get_current_user (token : AccessToken) (db : DB) (secret now : Nat) :
    Except Failure User :=
  match jwt_decode token secret now with
  | none => .error credentials_exception
  | some payload =>
    match payload.sub with
    | none => .error credentials_exception
    | some username =>
      match db.users.find? (fun u => u.username == username) with
      | none => .error credentials_exception
      | some user => .ok user

/-- auth.py `get_current_active_user`: rejects an inactive account with
HTTP 400 "Inactive user". -/
def get_current_active_user (current_user : User) : Except Failure User :=
  if current_user.is_active = false then
    .error (.http 400 "Inactive user")
  else
    .ok current_user

/-- The lookup filter of `authenticate_user`:
`(User.username == username) | (User.email == username)`. -/
def identMatches (ident : String) (u : User) : Bool :=
  u.username == ident || u.email == ident

/-- auth.py `authenticate_user`: first user whose username or email equals
the identifier; `None` when absent or when password verification returns
`False`. The `is_active` flag is not consulted. A passlib exception from
`verify_password` propagates. -/
def authenticate_user (username password : String) (db : DB) :
    Except PasslibError (Option User) :=
  match db.users.find? (identMatches username) with
  | none => .ok none
  | some user =>
    match verify_password password user.hashed_password with
    | .error e => .error e
    | .ok b => .ok (if b then some user else none)

/-- Body of a `TokenResponse` (schemas.py): `refresh_token` defaults to
`None` when the endpoint omits it. -/
structure TokenResponse where
  access_token : AccessToken
  refresh_token : Option String
  token_type : String
  expires_in : Nat
  deriving DecidableEq, Repr

/-- auth_routes.py `login_oauth2` (`POST /auth/login`): authenticate, 401 on
bad credentials, 403 on an inactive account, else an access token. -/
def login_oauth2 (username password : String) (db : DB)
    (secret now ttl_minutes : Nat) : Except Failure TokenResponse :=
  match authenticate_user username password db with
  | .error e => .error (.uncaught e)
  | .ok none => .error (.http 401 "Incorrect username or password")
  | .ok (some user) =>
    if user.is_active = false then
      .error (.http 403 "Account is inactive. Please contact support.")
    else
      .ok { access_token :=
              create_access_token (some user.username) none now secret ttl_minutes,
            refresh_token := none, token_type := "bearer",
            expires_in := ttl_minutes * 60 }

/-- auth_routes.py `login_json` (`POST /auth/login/json`): as `login_oauth2`
but also inserts a refresh token row when `remember_me` is set. -/
def login_json (username password : String) (remember_me : Bool) (db : DB)
    (secret now ttl_minutes refresh_days : Nat) (fresh_token : String)
    (next_id : Nat) (user_agent ip_address : Option String) :
    Except Failure (TokenResponse × DB) :=
  match authenticate_user username password db with
  | .error e => .error (.uncaught e)
  | .ok none => .error (.http 401 "Incorrect username or password")
  | .ok (some user) =>
    if user.is_active = false then
      .error (.http 403 "Account is inactive. Please contact support.")
    else
      let access_token :=
        create_access_token (some user.username) none now secret ttl_minutes
      if remember_me then
        let (rt, db') := create_refresh_token user.id db fresh_token now
          refresh_days next_id user_agent ip_address
        .ok ({ access_token := access_token, refresh_token := some rt,
               token_type := "bearer", expires_in := ttl_minutes * 60 }, db')
      else
        .ok ({ access_token := access_token, refresh_token := none,
               token_type := "bearer", expires_in := ttl_minutes * 60 }, db)

/-- auth_routes.py `refresh_access_token` (`POST /auth/refresh`): verify the
refresh token (`if not user_id:` is Python truthiness, so id 0 also maps to
401), 404 for a dangling user id, 403 for an inactive account, else a new
access token. -/
def refresh_access_token (refresh_token : String) (db : DB)
    (secret now ttl_minutes : Nat) : Except Failure TokenResponse :=
  match verify_refresh_token refresh_token db now with
  | none => .error (.http 401 "Invalid or expired refresh token")
  | some user_id =>
    if user_id = 0 then .error (.http 401 "Invalid or expired refresh token")
    else
      match db.users.find? (fun u => u.id == user_id) with
      | none => .error (.http 404 "User not found")
      | some user =>
        if user.is_active = false then
          .error (.http 403 "Account is inactive")
        else
          .ok { access_token :=
                  create_access_token (some user.username) none now secret ttl_minutes,
                refresh_token := none, token_type := "bearer",
                expires_in := ttl_minutes * 60 }

/-- Body of a `PasswordChangeRequest` (schemas.py). -/
structure PasswordChangeRequest where
  current_password : String
  new_password : String
  deriving DecidableEq, Repr

/-- auth_routes.py `change_password` (`PUT /auth/change-password`): verify
the current password (400 when wrong), store the new hash, then revoke every
refresh token of the user. The caller has already passed
`get_current_active_user`. -/
def change_password (current_user : User) (password_data : PasswordChangeRequest)
    (db : DB) (now salt : Nat) : Except Failure (String × DB) :=
  match verify_password password_data.current_password
      current_user.hashed_password with
  | .error e => .error (.uncaught e)
  | .ok false => .error (.http 400 "Current password is incorrect")
  | .ok true =>
    let newHash := get_password_hash password_data.new_password salt
    let db1 : DB :=
      { db with users := db.users.map (fun u =>
          if u.id == current_user.id then { u with hashed_password := newHash }
          else u) }
    let db2 := (revoke_all_user_tokens current_user.id db1 now).2
    .ok ("Password changed successfully. Please login again.", db2)

/-- auth_routes.py `delete_account` (`DELETE /auth/delete-account`): revoke
all of the user's tokens, then delete the user row; the `ondelete="CASCADE"`
foreign key removes the user's refresh token rows with it. -/
def delete_account (current_user : User) (db : DB) (now : Nat) : String × DB :=
  let db1 := (revoke_all_user_tokens current_user.id db now).2
  let db2 : DB :=
    { users := db1.users.filter (fun u => u.id != current_user.id),
      refresh_tokens := db1.refresh_tokens.filter
        (fun r => r.user_id != current_user.id) }
  ("Account deleted successfully", db2)

/-! ## The refresh-token writers of the system

Every code path that writes the `refresh_tokens` table factors through one of
these four operations: `create_refresh_token` (login_json),
`revoke_refresh_token` (logout), `revoke_all_user_tokens` (logout-all,
change-password, delete-account) and the cascade delete of `delete_account`. -/

/-- One write to the `refresh_tokens` table. -/
inductive AuthOp where
  | create (user_id : Nat) (token : String) (now refresh_days next_id : Nat)
      (user_agent ip_address : Option String)
  | revokeOne (token : String) (now : Nat)
  | revokeAll (user_id : Nat) (now : Nat)
  | deleteUserCascade (user : User) (now : Nat)
  deriving Repr

/-- Apply one write to the store. -/
def applyOp (db : DB) : AuthOp → DB
  | .create uid tok now days nid ua ip =>
      (create_refresh_token uid db tok now days nid ua ip).2
  | .revokeOne tok now => (revoke_refresh_token tok db now).2
  | .revokeAll uid now => (revoke_all_user_tokens uid db now).2
  | .deleteUserCascade u now => (delete_account u db now).2

/-- Whether the operation inserts a row carrying exactly the token string
`t`. The UNIQUE constraint on the column plus the 256-bit random draw of
`secrets.token_urlsafe(32)` keep this false for every string already in the
table. -/
def opCreatesToken (t : String) : AuthOp → Bool
  | .create _ tok _ _ _ _ _ => tok == t
  | _ => false

/-! ## Example fixtures -/

/-- A malformed value for the hash argument of `verify_password`. -/
def notAHash : String := "not-a-hash"

/-- A sample plaintext password. -/
def samplePassword : String := "SecurePassword123!"

/-- 73 copies of the letter a: one byte past bcrypt's 72-byte key limit. -/
def longA : String := ⟨List.replicate 73 'a'⟩

/-- 74 copies of the letter a. -/
def longA2 : String := ⟨List.replicate 74 'a'⟩

/-- Builder for refresh-token rows used by the concrete examples. -/
def mkRow (i uid : Nat) (tok : String) (exp : Nat) (rev : Bool) : RefreshToken :=
  { id := i, user_id := uid, token := tok, expires_at := exp, created_at := 0,
    is_revoked := rev, revoked_at := if rev then some 1 else none,
    revoked_reason := none, user_agent := none, ip_address := none }

/-- User 1 with 3 active and 2 revoked tokens, user 2 with 1 active token. -/
def exDB3 : DB :=
  { users := [],
    refresh_tokens :=
      [mkRow 1 1 ("a1") 100 false, mkRow 2 1 ("a2") 100 false,
       mkRow 3 1 ("a3") 100 false, mkRow 4 1 ("r1") 100 true,
       mkRow 5 1 ("r2") 100 true, mkRow 6 2 ("b1") 100 false] }

/-- A store whose only row carrying the token of interest is revoked. -/
def exDBrev : DB :=
  { users := [], refresh_tokens := [mkRow 1 1 ("gone") 100 true] }

/-- A store holding one already-revoked row. -/
def exDB8 : DB :=
  { users := [], refresh_tokens := [mkRow 1 1 ("x1") 100 true] }

/-- An account with `is_active = False`. -/
def inactiveUser : User :=
  { id := 9, email := "inactive@example.com", username := "inactive1",
    hashed_password := get_password_hash samplePassword 0,
    is_active := false, is_verified := false, created_at := 0 }

/-- A store holding only the inactive account. -/
def exDB5 : DB := { users := [inactiveUser], refresh_tokens := [] }

/-- An active account whose password is `samplePassword`. -/
def exUser9 : User :=
  { id := 1, email := "user9@example.com", username := "user9",
    hashed_password := get_password_hash samplePassword 0,
    is_active := true, is_verified := false, created_at := 0 }

/-- A change-password request carrying the right current password. -/
def exPD9 : PasswordChangeRequest :=
  { current_password := samplePassword,
    new_password := "NewSecurePassword456!" }

/-- The store for the change-password example: user 1 with one active and
one revoked refresh token. -/
def exDB9 : DB :=
  { users := [exUser9],
    refresh_tokens := [mkRow 1 1 ("rt9a") 100 false, mkRow 2 1 ("rt9b") 100 true] }

/-- Project the new store out of a successful endpoint result. -/
def okState (r : Except Failure (String × DB)) (fallback : DB) : DB :=
  match r with
  | .ok (_, d) => d
  | .error _ => fallback

/-- The store after the change-password example succeeds. -/
def exDB9after : DB := okState (change_password exUser9 exPD9 exDB9 10 1) exDB9

/-- The message of a successful change-password call. -/
def cpMsg : String := "Password changed successfully. Please login again."

/-- A correctly signed token whose subject names no stored user. -/
def ghostToken : AccessToken :=
  .signed { sub := some ("ghost"), exp := 100, iat := 0, type := "access" } 42

/-- A correctly signed token for `exUser9`. -/
def user9Token : AccessToken :=
  .signed { sub := some ("user9"), exp := 100, iat := 0, type := "access" } 42

/-! ## Helper lemmas about the bcrypt model -/

theorem char_toNat_lt_limit (c : Char) : c.toNat < 1114112 := by
  rcases c.valid with h | ⟨_, h⟩
  · exact Nat.lt_trans h (by decide)
  · exact h

theorem utf8Bytes_lt (c : Char) : ∀ b ∈ utf8Bytes c, b < 256 := by
  intro b hb
  have hc : c.toNat < 1114112 := char_toNat_lt_limit c
  by_cases h1 : c.toNat < 128
  · simp only [utf8Bytes, if_pos h1, List.mem_singleton] at hb
    omega
  · by_cases h2 : c.toNat < 2048
    · simp only [utf8Bytes, if_neg h1, if_pos h2, List.mem_cons,
        List.not_mem_nil, or_false] at hb
      rcases hb with rfl | rfl <;> omega
    · by_cases h3 : c.toNat < 65536
      · simp only [utf8Bytes, if_neg h1, if_neg h2, if_pos h3, List.mem_cons,
          List.not_mem_nil, or_false] at hb
        rcases hb with rfl | rfl | rfl <;> omega
      · simp only [utf8Bytes, if_neg h1, if_neg h2, if_neg h3, List.mem_cons,
          List.not_mem_nil, or_false] at hb
        rcases hb with rfl | rfl | rfl | rfl <;> omega

theorem strBytes_lt (s : String) : ∀ b ∈ strBytes s, b < 256 := by
  intro b hb
  simp only [strBytes, List.mem_flatMap] at hb
  obtain ⟨c, _, hbc⟩ := hb
  exact utf8Bytes_lt c b hbc

theorem bcryptKey_lt (p : String) : ∀ b ∈ bcryptKey p, b < 256 :=
  fun b hb => strBytes_lt p b (List.take_subset _ _ hb)

theorem byteChar_toNat {b : Nat} (h : b < 55296) : (byteChar b).toNat = b := by
  unfold byteChar Char.ofNat
  rw [dif_pos (Or.inl h)]
  rfl

/-- Identifying a hash the model itself emitted recovers salt and checksum. -/
theorem identifyBcrypt_hashString (salt : Nat) (key : List Nat)
    (hk : ∀ b ∈ key, b < 256) :
    identifyBcrypt (bcryptHashString salt key) = some (salt % 55296, key) := by
  show some ((Char.ofNat (salt % 55296)).toNat, (key.map byteChar).map Char.toNat)
    = some (salt % 55296, key)
  have hsalt : (Char.ofNat (salt % 55296)).toNat = salt % 55296 :=
    byteChar_toNat (Nat.mod_lt _ (by omega))
  have hkey : (key.map byteChar).map Char.toNat = key := by
    rw [List.map_map]
    have : key.map (Char.toNat ∘ byteChar) = key.map id :=
      List.map_congr_left fun b hb =>
        byteChar_toNat (Nat.lt_trans (hk b hb) (by omega))
    rw [this, List.map_id]
  rw [hsalt, hkey]

/-- Verifying any candidate against a hash the model emitted reduces to
comparing the two truncated keys. -/
theorem verify_password_hash (P P' : String) (salt : Nat) :
    verify_password P' (get_password_hash P salt) =
      .ok (bcryptKey P == bcryptKey P') := by
  unfold verify_password pwd_context_verify get_password_hash pwd_context_hash
  rw [identifyBcrypt_hashString salt (bcryptKey P) (bcryptKey_lt P)]

/-! ## Claim C6 -/

/-- C6 as written is false: bcrypt truncates the secret to 72 bytes, so the
distinct passwords of 73 and 74 letters a verify interchangeably. Here a
password different from the hashed one still verifies as true. -/
theorem bcrypt_truncation_collision :
    longA2 ≠ longA ∧
    verify_password longA2 (get_password_hash longA 0) = .ok true := by
  constructor
  · decide
  · rw [verify_password_hash]
    exact congrArg Except.ok (by decide)

/-- C6 (amended): verifying P against hash(P) always returns true, and
verification against hash(P) compares the first 72 UTF-8 bytes of the
candidate with those of P — so any P' differing from P within the first 72
bytes is rejected, while passwords agreeing on their first 72 bytes are
interchangeable. -/
theorem password_hash_verify_spec :
    (∀ (P : String) (salt : Nat),
      verify_password P (get_password_hash P salt) = .ok true) ∧
    (∀ (P P' : String) (salt : Nat),
      verify_password P' (get_password_hash P salt) =
        .ok (bcryptKey P == bcryptKey P')) := by
  constructor
  · intro P salt
    rw [verify_password_hash, beq_self_eq_true]
  · intro P P' salt
    exact verify_password_hash P P' salt

/-! ## Claim C4 -/

/-- C4 as written is false: on a malformed hash argument `verify_password`
raises passlib's `UnknownHashError` (embedded as `Except.error`) instead of
returning false. -/
theorem verify_password_throws_on_malformed :
    verify_password samplePassword notAHash = .error .unknownHash ∧
    (Except.error .unknownHash : Except PasslibError Bool) ≠ .ok false := by
  exact ⟨rfl, fun h => Except.noConfusion h⟩

/-- C4 (amended): `verify_password` never returns false for a malformed hash
argument; it raises (propagates `UnknownHashError`) exactly when the hash
string is not identifiable as a bcrypt hash, and returns a boolean otherwise. -/
theorem verify_password_error_spec :
    ∀ plain hash : String,
      ((∃ e, verify_password plain hash = .error e) ↔
        identifyBcrypt hash = none) ∧
      (identifyBcrypt hash = none →
        verify_password plain hash = .error .unknownHash) := by
  intro plain hash
  unfold verify_password pwd_context_verify
  cases h : identifyBcrypt hash with
  | none =>
    refine ⟨⟨fun _ => rfl, fun _ => ⟨.unknownHash, rfl⟩⟩, fun _ => rfl⟩
  | some rec =>
    refine ⟨⟨fun ⟨e, he⟩ => ?_, fun hn => Option.noConfusion hn⟩,
      fun hn => Option.noConfusion hn⟩
    obtain ⟨s, cs⟩ := rec
    exact Except.noConfusion he

/-- Witness for C4's amended theorem at a concrete malformed input. -/
theorem verify_password_error_spec_witness :
    verify_password samplePassword notAHash = .error .unknownHash :=
  (verify_password_error_spec samplePassword notAHash).2 (by decide)

/-! ## Helper lemmas about the refresh-token table -/

theorem refreshTokenLive_iff (t : String) (now : Nat) (r : RefreshToken) :
    refreshTokenLive t now r = true ↔
      r.token = t ∧ r.is_revoked = false ∧ now < r.expires_at := by
  simp [refreshTokenLive, and_assoc]

theorem ownedActive_iff (uid : Nat) (r : RefreshToken) :
    ownedActive uid r = true ↔ r.user_id = uid ∧ r.is_revoked = false := by
  simp [ownedActive]

/-- Two rows of a token-unique table sharing a token string coincide. -/
theorem eq_of_mem_of_token_eq {db : DB} (hu : tokensUnique db)
    {a b : RefreshToken} (ha : a ∈ db.refresh_tokens)
    (hb : b ∈ db.refresh_tokens) (ht : a.token = b.token) : a = b := by
  by_contra hne
  have hsym : Symmetric (fun a b : RefreshToken => a.token ≠ b.token) := by
    intro a b h e
    exact h e.symm
  exact List.Pairwise.forall hsym hu ha hb hne ht

/-- When every row carrying the token is revoked, the lookup of
`verify_refresh_token` finds nothing. -/
theorem verify_none_of_all_revoked {t : String} {db : DB} {now : Nat}
    (h : ∀ r ∈ db.refresh_tokens, r.token = t → r.is_revoked = true) :
    verify_refresh_token t db now = none := by
  unfold verify_refresh_token
  rw [List.find?_eq_none.mpr]
  intro r hr hc
  rw [refreshTokenLive_iff] at hc
  rw [h r hr hc.1] at hc
  exact Bool.noConfusion hc.2.1

/-! ## Claim C2 -/

/-- C2: under the UNIQUE constraint on the token column,
`verify_refresh_token` returns a user id exactly when a row with that exact
token string exists, is not revoked, and expires strictly after `now`, and
the id returned is that row's owner; every failure (absent, revoked, or
expired) is the same `none`. -/
theorem verify_refresh_token_spec (t : String) (db : DB) (now uid : Nat)
    (hu : tokensUnique db) :
    verify_refresh_token t db now = some uid ↔
      ∃ r ∈ db.refresh_tokens,
        r.token = t ∧ r.is_revoked = false ∧ now < r.expires_at ∧
        r.user_id = uid := by
  unfold verify_refresh_token
  constructor
  · intro h
    cases hf : db.refresh_tokens.find? (refreshTokenLive t now) with
    | none => rw [hf] at h; exact Option.noConfusion h
    | some row =>
      rw [hf] at h
      have hp := (refreshTokenLive_iff t now row).mp (List.find?_some hf)
      exact ⟨row, List.mem_of_find?_eq_some hf, hp.1, hp.2.1, hp.2.2,
        Option.some.inj h⟩
  · rintro ⟨r, hr, h1, h2, h3, h4⟩
    cases hf : db.refresh_tokens.find? (refreshTokenLive t now) with
    | none =>
      exact absurd ((refreshTokenLive_iff t now r).mpr ⟨h1, h2, h3⟩)
        (List.find?_eq_none.mp hf r hr)
    | some row =>
      have hp := (refreshTokenLive_iff t now row).mp (List.find?_some hf)
      have : row = r :=
        eq_of_mem_of_token_eq hu (List.mem_of_find?_eq_some hf) hr
          (hp.1.trans h1.symm)
      rw [this]
      show some r.user_id = some uid
      rw [h4]

/-- Witness for C2 at a concrete store: token a1 of user 1 is live at time 5. -/
theorem verify_refresh_token_spec_witness :
    verify_refresh_token ("a1") exDB3 5 = some 1 ↔
      ∃ r ∈ exDB3.refresh_tokens,
        r.token = ("a1") ∧ r.is_revoked = false ∧ 5 < r.expires_at ∧
        r.user_id = 1 :=
  verify_refresh_token_spec ("a1") exDB3 5 1 (by decide)

/-! ## Claim C3 -/

/-- C3: `revoke_all_user_tokens` returns the count of the user's rows that
were not yet revoked; row by row, exactly the user's non-revoked rows are
flipped to revoked and stamped with `revoked_at = now`, all other rows
(including the user's already-revoked ones, which keep their old timestamp)
are untouched; afterwards no refresh token verifies for that user; and on a
store with 3 active and 2 already-revoked rows of user 1 the count is 3. -/
theorem revoke_all_user_tokens_spec (uid : Nat) (db : DB) (now : Nat) :
    ((revoke_all_user_tokens uid db now).1 =
      db.refresh_tokens.countP (ownedActive uid)) ∧
    List.Forall₂ (fun old new =>
        (old.user_id = uid ∧ old.is_revoked = false →
          new = { old with is_revoked := true, revoked_at := some now }) ∧
        (¬(old.user_id = uid ∧ old.is_revoked = false) → new = old))
      db.refresh_tokens (revoke_all_user_tokens uid db now).2.refresh_tokens ∧
    ((revoke_all_user_tokens uid db now).2.users = db.users) ∧
    (∀ t n u, verify_refresh_token t (revoke_all_user_tokens uid db now).2 n =
      some u → u ≠ uid) ∧
    ((revoke_all_user_tokens 1 exDB3 50).1 = 3) := by
  refine ⟨?_, ?_, rfl, ?_, by decide⟩
  · rw [List.countP_eq_length_filter]
    rfl
  · show List.Forall₂ _ db.refresh_tokens (db.refresh_tokens.map _)
    rw [List.forall₂_map_right_iff, List.forall₂_same]
    intro r _
    by_cases hc : r.user_id = uid ∧ r.is_revoked = false
    · rw [if_pos ((ownedActive_iff uid r).mpr hc)]
      exact ⟨fun _ => rfl, fun hn => absurd hc hn⟩
    · rw [if_neg (fun hb => hc ((ownedActive_iff uid r).mp hb))]
      exact ⟨fun hy => absurd hy hc, fun _ => rfl⟩
  · intro t n u h
    unfold verify_refresh_token at h
    cases hf : ((revoke_all_user_tokens uid db now).2.refresh_tokens).find?
        (refreshTokenLive t n) with
    | none => rw [hf] at h; exact Option.noConfusion h
    | some row =>
      rw [hf] at h
      have hp := (refreshTokenLive_iff t n row).mp (List.find?_some hf)
      have hm := List.mem_of_find?_eq_some hf
      have hmem : row ∈ db.refresh_tokens.map (fun r =>
          if ownedActive uid r
          then { r with is_revoked := true, revoked_at := some now }
          else r) := hm
      obtain ⟨old, hold, hfe⟩ := List.mem_map.mp hmem
      intro huid
      by_cases hc : ownedActive uid old = true
      · rw [if_pos hc] at hfe
        rw [← hfe] at hp
        exact Bool.noConfusion hp.2.1
      · rw [if_neg (fun hb => hc hb)] at hfe
        have hru : row.user_id = u := Option.some.inj h
        have hold_id : old.user_id = uid := by rw [hfe, hru, huid]
        have hold_rev : old.is_revoked = false := by rw [hfe]; exact hp.2.1
        exact hc ((ownedActive_iff uid old).mpr ⟨hold_id, hold_rev⟩)

/-- Witness for C3: on the concrete store, after revoke-all for user 1 the
only still-verifying token belongs to user 2, and its owner is not user 1. -/
theorem revoke_all_user_tokens_spec_witness :
    verify_refresh_token ("b1") (revoke_all_user_tokens 1 exDB3 50).2 5 =
      some 2 ∧ (2 : Nat) ≠ 1 :=
  ⟨by rfl, (revoke_all_user_tokens_spec 1 exDB3 50).2.2.2.1 ("b1") 5 2 (by rfl)⟩

/-! ## Claim C1 -/

/-- Every row of a `revokeFirst` result either already stood in the table or
is the rewritten row, which is revoked. -/
theorem revokeFirst_mem {tok : String} {now : Nat} :
    ∀ {l l' : List RefreshToken}, revokeFirst tok now l = some l' →
      ∀ r' ∈ l', r' ∈ l ∨ r'.is_revoked = true := by
  intro l
  induction l with
  | nil => intro l' h; exact Option.noConfusion h
  | cons r rs ih =>
    intro l' h
    unfold revokeFirst at h
    by_cases hc : (r.token == tok) = true
    · rw [if_pos hc] at h
      have hl : { r with is_revoked := true, revoked_at := some now } :: rs = l' :=
        Option.some.inj h
      intro r' hr'
      rw [← hl] at hr'
      rcases List.mem_cons.mp hr' with heq | hmem
      · right; rw [heq]
      · left; exact List.mem_cons_of_mem _ hmem
    · rw [if_neg hc] at h
      cases hh : revokeFirst tok now rs with
      | none => rw [hh] at h; exact Option.noConfusion h
      | some rs' =>
        rw [hh] at h
        have hl : r :: rs' = l' := Option.some.inj h
        intro r' hr'
        rw [← hl] at hr'
        rcases List.mem_cons.mp hr' with heq | hmem
        · left; rw [heq]; exact List.mem_cons_self _ _
        · rcases ih hh r' hmem with hm | hrev
          · left; exact List.mem_cons_of_mem _ hm
          · right; exact hrev

/-- One table write never un-revokes: if every row carrying token `t` is
revoked and the write does not insert a row with token `t`, the same holds
afterwards. -/
theorem applyOp_preserves_revoked (db : DB) (op : AuthOp) (t : String)
    (hrev : ∀ r ∈ db.refresh_tokens, r.token = t → r.is_revoked = true)
    (hfresh : opCreatesToken t op = false) :
    ∀ r ∈ (applyOp db op).refresh_tokens, r.token = t → r.is_revoked = true := by
  cases op with
  | create uid tok now days nid ua ip =>
    intro r hr htok
    simp only [applyOp, create_refresh_token, List.mem_append,
      List.mem_singleton] at hr
    rcases hr with hr | hr
    · exact hrev r hr htok
    · exfalso
      simp only [opCreatesToken, beq_eq_false_iff_ne, ne_eq] at hfresh
      rw [hr] at htok
      exact hfresh htok
  | revokeOne tok now =>
    intro r hr htok
    simp only [applyOp, revoke_refresh_token] at hr
    cases hh : revokeFirst tok now db.refresh_tokens with
    | none => rw [hh] at hr; exact hrev r hr htok
    | some ts =>
      rw [hh] at hr
      rcases revokeFirst_mem hh r hr with hm | hrevk
      · exact hrev r hm htok
      · exact hrevk
  | revokeAll uid now =>
    intro r hr htok
    simp only [applyOp, revoke_all_user_tokens, List.mem_map] at hr
    obtain ⟨old, hold, hfe⟩ := hr
    by_cases hc : ownedActive uid old = true
    · rw [if_pos hc] at hfe
      rw [← hfe]
    · rw [if_neg hc] at hfe
      rw [← hfe] at htok ⊢
      exact hrev old hold htok
  | deleteUserCascade u now =>
    intro r hr htok
    simp only [applyOp, delete_account, List.mem_filter] at hr
    have hr' := hr.1
    simp only [revoke_all_user_tokens, List.mem_map] at hr'
    obtain ⟨old, hold, hfe⟩ := hr'
    by_cases hc : ownedActive u.id old = true
    · rw [if_pos hc] at hfe
      rw [← hfe]
    · rw [if_neg hc] at hfe
      rw [← hfe] at htok ⊢
      exact hrev old hold htok

/-- C1: revocation is terminal. If every row carrying token `t` is revoked
and no later write inserts a row with that token string (guaranteed by the
UNIQUE constraint on the column and the fresh random draw at creation), then
after any sequence of the system's table writes those rows are still revoked
and `verify_refresh_token` never again returns a user id for `t`, at any
query time — in particular before the row's expiry. -/
theorem revoked_stays_revoked (ops : List AuthOp) (db : DB) (t : String)
    (hrev : ∀ r ∈ db.refresh_tokens, r.token = t → r.is_revoked = true)
    (hfresh : ∀ op ∈ ops, opCreatesToken t op = false) :
    (∀ r ∈ (ops.foldl applyOp db).refresh_tokens,
      r.token = t → r.is_revoked = true) ∧
    (∀ now, verify_refresh_token t (ops.foldl applyOp db) now = none) := by
  have main : ∀ (os : List AuthOp) (d : DB),
      (∀ r ∈ d.refresh_tokens, r.token = t → r.is_revoked = true) →
      (∀ op ∈ os, opCreatesToken t op = false) →
      ∀ r ∈ (os.foldl applyOp d).refresh_tokens,
        r.token = t → r.is_revoked = true := by
    intro os
    induction os with
    | nil => intro d h _; exact h
    | cons op os ih =>
      intro d h hf
      simp only [List.foldl_cons]
      exact ih (applyOp d op)
        (applyOp_preserves_revoked d op t h (hf op (List.mem_cons_self _ _)))
        (fun o ho => hf o (List.mem_cons_of_mem _ ho))
  exact ⟨main ops db hrev hfresh,
    fun now => verify_none_of_all_revoked (main ops db hrev hfresh)⟩

/-- Witness for C1: the revoked token `gone` stays invisible to
`verify_refresh_token` across a revoke-all, a fresh-token insert and a
single-token revoke, queried at time 5, before the row's expiry 100. -/
theorem revoked_stays_revoked_witness :
    verify_refresh_token ("gone")
      ([AuthOp.revokeAll 1 5,
        AuthOp.create 2 ("fresh") 6 30 7 none none,
        AuthOp.revokeOne ("gone") 8].foldl applyOp exDBrev) 5 = none :=
  (revoked_stays_revoked _ exDBrev ("gone") (by decide) (by decide)).2 5

/-! ## Claim C8 -/

theorem revokeFirst_eq_none {tok : String} {now : Nat} :
    ∀ {l : List RefreshToken},
      revokeFirst tok now l = none ↔ ∀ r ∈ l, r.token ≠ tok := by
  intro l
  induction l with
  | nil => simp [revokeFirst]
  | cons r rs ih =>
    unfold revokeFirst
    by_cases hc : (r.token == tok) = true
    · rw [if_pos hc]
      simp only [beq_iff_eq] at hc
      constructor
      · intro h; exact Option.noConfusion h
      · intro h
        exact absurd hc (h r (List.mem_cons_self _ _))
    · rw [if_neg hc]
      simp only [beq_iff_eq] at hc
      cases hh : revokeFirst tok now rs with
      | some rs' =>
        constructor
        · intro h; exact Option.noConfusion h
        · intro h
          have hn : revokeFirst tok now rs = none :=
            ih.mpr (fun x hx => h x (List.mem_cons_of_mem _ hx))
          rw [hh] at hn
          exact Option.noConfusion hn
      | none =>
        constructor
        · intro _ x hx
          rcases List.mem_cons.mp hx with heq | hmem
          · rw [heq]; exact hc
          · exact ih.mp hh x hmem
        · intro _; rfl

theorem revokeFirst_split {tok : String} {now : Nat} :
    ∀ (pre : List RefreshToken) (r : RefreshToken) (post : List RefreshToken),
      r.token = tok → (∀ x ∈ pre, x.token ≠ tok) →
      revokeFirst tok now (pre ++ r :: post) =
        some (pre ++ { r with is_revoked := true, revoked_at := some now } :: post) := by
  intro pre
  induction pre with
  | nil =>
    intro r post hr _
    simp only [List.nil_append]
    unfold revokeFirst
    rw [if_pos (beq_iff_eq.mpr hr)]
  | cons p ps ih =>
    intro r post hr hpre
    show revokeFirst tok now (p :: (ps ++ r :: post)) = _
    unfold revokeFirst
    rw [if_neg]
    · rw [ih r post hr (fun x hx => hpre x (List.mem_cons_of_mem _ hx))]
      rfl
    · simp only [beq_iff_eq]
      exact hpre p (List.mem_cons_self _ _)

/-- C8: `revoke_refresh_token` returns true exactly when a row with that
exact token string exists — including when the row was already revoked, in
which case it is stamped with a fresh `revoked_at` all the same; on a miss it
returns false and leaves the store untouched; the users table is never
touched; and when the first matching row is located it is rewritten to
`is_revoked = true, revoked_at = now` with every other row unchanged. -/
theorem revoke_refresh_token_spec (t : String) (db : DB) (now : Nat) :
    ((revoke_refresh_token t db now).1 = true ↔
      ∃ r ∈ db.refresh_tokens, r.token = t) ∧
    ((revoke_refresh_token t db now).1 = false →
      (revoke_refresh_token t db now).2 = db) ∧
    ((revoke_refresh_token t db now).2.users = db.users) ∧
    (∀ pre r post, db.refresh_tokens = pre ++ r :: post → r.token = t →
      (∀ x ∈ pre, x.token ≠ t) →
      (revoke_refresh_token t db now).2.refresh_tokens =
        pre ++ { r with is_revoked := true, revoked_at := some now } :: post) := by
  refine ⟨?_, ?_, ?_, ?_⟩
  · unfold revoke_refresh_token
    cases hh : revokeFirst t now db.refresh_tokens with
    | none =>
      simp only [Bool.false_eq_true, false_iff]
      rintro ⟨r, hr, hrt⟩
      exact revokeFirst_eq_none.mp hh r hr hrt
    | some ts =>
      simp only [true_iff]
      by_contra hne
      push_neg at hne
      have : revokeFirst t now db.refresh_tokens = none :=
        revokeFirst_eq_none.mpr hne
      rw [hh] at this
      exact Option.noConfusion this
  · unfold revoke_refresh_token
    cases hh : revokeFirst t now db.refresh_tokens with
    | none => intro _; rfl
    | some ts => intro h; exact Bool.noConfusion h
  · unfold revoke_refresh_token
    cases hh : revokeFirst t now db.refresh_tokens with
    | none => rfl
    | some ts => rfl
  · intro pre r post hsplit hrt hpre
    unfold revoke_refresh_token
    rw [hsplit, revokeFirst_split pre r post hrt hpre]

/-- Witness for C8: revoking the already-revoked row `x1` at time 9 still
returns true and re-stamps `revoked_at` to 9. -/
theorem revoke_refresh_token_spec_witness :
    (revoke_refresh_token ("x1") exDB8 9).2.refresh_tokens =
      [] ++ { mkRow 1 1 ("x1") 100 true with
          is_revoked := true, revoked_at := some 9 } :: [] :=
  (revoke_refresh_token_spec ("x1") exDB8 9).2.2.2 [] (mkRow 1 1 ("x1") 100 true)
    [] (by decide) (by decide) (by intro x hx; exact absurd hx (List.not_mem_nil x))

/-! ## Claim C5 -/

/-- C5 as written is false: for a caller resolved through
`get_current_active_user`, an inactive account is rejected with HTTP 400
("Inactive user"), not 403. -/
theorem inactive_user_http_400_not_403 :
    get_current_active_user inactiveUser = .error (.http 400 "Inactive user") ∧
    (400 : Nat) ≠ 403 :=
  ⟨rfl, by decide⟩

/-- C5 (amended): an inactive account is surfaced as 403 by the login
endpoints and by the refresh endpoint, but every access-token-protected
endpoint that resolves the caller via `get_current_active_user` surfaces it
as 400 "Inactive user". -/
theorem inactive_account_statuses :
    (∀ u : User, u.is_active = false →
      get_current_active_user u = .error (.http 400 "Inactive user")) ∧
    (∀ (username password : String) (db : DB) (secret now ttl : Nat)
        (u : User),
      authenticate_user username password db = .ok (some u) →
      u.is_active = false →
      login_oauth2 username password db secret now ttl =
        .error (.http 403 "Account is inactive. Please contact support.")) ∧
    (∀ (username password : String) (remember : Bool) (db : DB)
        (secret now ttl days : Nat) (ft : String) (nid : Nat)
        (ua ip : Option String) (u : User),
      authenticate_user username password db = .ok (some u) →
      u.is_active = false →
      login_json username password remember db secret now ttl days ft nid ua ip =
        .error (.http 403 "Account is inactive. Please contact support.")) ∧
    (∀ (rt : String) (db : DB) (secret now ttl uid : Nat) (u : User),
      verify_refresh_token rt db now = some uid → uid ≠ 0 →
      db.users.find? (fun v => v.id == uid) = some u →
      u.is_active = false →
      refresh_access_token rt db secret now ttl =
        .error (.http 403 "Account is inactive")) := by
  refine ⟨?_, ?_, ?_, ?_⟩
  · intro u hu
    unfold get_current_active_user
    rw [if_pos hu]
  · intro username password db secret now ttl u hauth hu
    unfold login_oauth2
    simp only [hauth]
    rw [if_pos hu]
  · intro username password remember db secret now ttl days ft nid ua ip u
      hauth hu
    unfold login_json
    simp only [hauth]
    rw [if_pos hu]
  · intro rt db secret now ttl uid u hver hz hfind hu
    unfold refresh_access_token
    simp only [hver]
    rw [if_neg hz]
    simp only [hfind]
    rw [if_pos hu]

/-- Witness for C5's amended theorem: the login endpoint rejects the
inactive account with 403, while `get_current_active_user` rejects it
with 400. -/
theorem inactive_account_statuses_witness :
    login_oauth2 ("inactive1") samplePassword exDB5 7 0 30 =
      .error (.http 403 "Account is inactive. Please contact support.") ∧
    get_current_active_user inactiveUser = .error (.http 400 "Inactive user") :=
  ⟨inactive_account_statuses.2.1 ("inactive1") samplePassword exDB5 7 0 30
      inactiveUser (by rfl) (by rfl),
    inactive_account_statuses.1 inactiveUser (by rfl)⟩

/-! ## Claim C7 -/

theorem identMatches_iff (ident : String) (u : User) :
    identMatches ident u = true ↔ u.username = ident ∨ u.email = ident := by
  simp [identMatches]

theorem authenticate_user_notfound (ident pwd : String) (db : DB)
    (hf : db.users.find? (identMatches ident) = none) :
    authenticate_user ident pwd db = .ok none := by
  unfold authenticate_user
  rw [hf]

theorem authenticate_user_found (ident pwd : String) (db : DB) (w : User)
    (hf : db.users.find? (identMatches ident) = some w) :
    authenticate_user ident pwd db =
      match verify_password pwd w.hashed_password with
      | .error e => .error e
      | .ok b => .ok (if b then some w else none) := by
  unfold authenticate_user
  rw [hf]

/-- C7: when at most one stored user matches the identifier (the uniqueness
the schema enforces), `authenticate_user` returns a user exactly when that
user's username or email equals the identifier and the password verifies
against their stored hash — with no condition on `is_active` — and returns
the `None` outcome exactly when nobody matches or the matching user's
password verification returns false. -/
theorem authenticate_user_spec (ident pwd : String) (db : DB)
    (huniq : ∀ u ∈ db.users, ∀ v ∈ db.users,
      identMatches ident u = true → identMatches ident v = true → u = v) :
    (∀ u : User,
      authenticate_user ident pwd db = .ok (some u) ↔
        u ∈ db.users ∧ (u.username = ident ∨ u.email = ident) ∧
          verify_password pwd u.hashed_password = .ok true) ∧
    (authenticate_user ident pwd db = .ok none ↔
      ((∀ u ∈ db.users, u.username ≠ ident ∧ u.email ≠ ident) ∨
        ∃ u ∈ db.users, (u.username = ident ∨ u.email = ident) ∧
          verify_password pwd u.hashed_password = .ok false)) := by
  constructor
  · intro u
    cases hf : db.users.find? (identMatches ident) with
    | none =>
      rw [authenticate_user_notfound ident pwd db hf]
      constructor
      · intro h; exact Option.noConfusion (Except.ok.inj h)
      · rintro ⟨hm, hmatch, _⟩
        exact absurd ((identMatches_iff ident u).mpr hmatch)
          (List.find?_eq_none.mp hf u hm)
    | some w =>
      have hw := List.find?_some hf
      have hwm := List.mem_of_find?_eq_some hf
      rw [authenticate_user_found ident pwd db w hf]
      cases hv : verify_password pwd w.hashed_password with
      | error e =>
        constructor
        · intro h; exact Except.noConfusion h
        · rintro ⟨hm, hmatch, hok⟩
          have hwu : w = u :=
            huniq w hwm u hm hw ((identMatches_iff ident u).mpr hmatch)
          rw [hwu, hok] at hv
          exact Except.noConfusion hv
      | ok b =>
        cases b with
        | false =>
          constructor
          · intro h
            exact Option.noConfusion (Except.ok.inj h)
          · rintro ⟨hm, hmatch, hok⟩
            have hwu : w = u :=
              huniq w hwm u hm hw ((identMatches_iff ident u).mpr hmatch)
            rw [hwu, hok] at hv
            exact Bool.noConfusion (Except.ok.inj hv)
        | true =>
          constructor
          · intro h
            have hwu : w = u := Option.some.inj (Except.ok.inj h)
            rw [← hwu]
            exact ⟨hwm, (identMatches_iff ident w).mp hw, hv⟩
          · rintro ⟨hm, hmatch, hok⟩
            have hwu : w = u :=
              huniq w hwm u hm hw ((identMatches_iff ident u).mpr hmatch)
            rw [hwu]
            rfl
  · cases hf : db.users.find? (identMatches ident) with
    | none =>
      rw [authenticate_user_notfound ident pwd db hf]
      constructor
      · intro _
        left
        intro u hu
        have hni := List.find?_eq_none.mp hf u hu
        rw [identMatches_iff] at hni
        exact ⟨fun he => hni (Or.inl he), fun he => hni (Or.inr he)⟩
      · intro _; rfl
    | some w =>
      have hw := List.find?_some hf
      have hwm := List.mem_of_find?_eq_some hf
      rw [authenticate_user_found ident pwd db w hf]
      cases hv : verify_password pwd w.hashed_password with
      | error e =>
        constructor
        · intro h; exact Except.noConfusion h
        · rintro (hall | ⟨u, hu, hmatch, hok⟩)
          · have hne := hall w hwm
            rcases (identMatches_iff ident w).mp hw with he | he
            · exact absurd he hne.1
            · exact absurd he hne.2
          · have hwu : w = u :=
              huniq w hwm u hu hw ((identMatches_iff ident u).mpr hmatch)
            rw [hwu, hok] at hv
            exact Except.noConfusion hv
      | ok b =>
        cases b with
        | false =>
          constructor
          · intro _
            right
            exact ⟨w, hwm, (identMatches_iff ident w).mp hw, hv⟩
          · intro _; rfl
        | true =>
          constructor
          · intro h
            exact Option.noConfusion (Except.ok.inj h)
          · rintro (hall | ⟨u, hu, hmatch, hok⟩)
            · have hne := hall w hwm
              rcases (identMatches_iff ident w).mp hw with he | he
              · exact absurd he hne.1
              · exact absurd he hne.2
            · have hwu : w = u :=
                huniq w hwm u hu hw ((identMatches_iff ident u).mpr hmatch)
              rw [hwu, hok] at hv
              exact Bool.noConfusion (Except.ok.inj hv)

/-- Witness for C7: the identifier `inactive1` authenticates to the stored
(inactive) account — `is_active` is not consulted. -/
theorem authenticate_user_spec_witness :
    authenticate_user ("inactive1") samplePassword exDB5 =
      .ok (some inactiveUser) :=
  ((authenticate_user_spec ("inactive1") samplePassword exDB5
      (by decide)).1 inactiveUser).mpr
    ⟨by decide, Or.inl (by decide), by rfl⟩

/-! ## Claim C9 -/

/-- C9: when a change-password request succeeds, every refresh token the
user held beforehand no longer verifies at any later time (so any refresh
call bearing one of them fails), while access tokens are validated purely
against the signing secret and their own expiry claim — the store plays no
part — so a token issued before the change keeps verifying until its `exp`
and fails only after it. -/
theorem change_password_spec (u : User) (pd : PasswordChangeRequest) (db : DB)
    (now salt : Nat) (msg : String) (db' : DB)
    (hu : tokensUnique db)
    (hok : change_password u pd db now salt = .ok (msg, db')) :
    (∀ r ∈ db.refresh_tokens, r.user_id = u.id →
      ∀ n, verify_refresh_token r.token db' n = none) ∧
    (∀ (sub : Option String) (secret iat ttl n : Nat),
      jwt_decode (create_access_token sub none iat secret ttl) secret n =
        if n ≤ iat + ttl * 60 then
          some { sub := sub, exp := iat + ttl * 60, iat := iat,
                 type := "access" }
        else none) := by
  constructor
  · intro r hr hruid n
    unfold change_password at hok
    cases hv : verify_password pd.current_password u.hashed_password with
    | error e => rw [hv] at hok; exact Except.noConfusion hok
    | ok b =>
      cases b with
      | false => rw [hv] at hok; exact Except.noConfusion hok
      | true =>
        rw [hv] at hok
        have hdb : (revoke_all_user_tokens u.id
            { db with users := db.users.map (fun v =>
                if v.id == u.id then
                  { v with hashed_password :=
                      get_password_hash pd.new_password salt }
                else v) } now).2 = db' :=
          congrArg Prod.snd (Except.ok.inj hok)
        rw [← hdb]
        apply verify_none_of_all_revoked
        intro r' hr' htok
        simp only [revoke_all_user_tokens, List.mem_map] at hr'
        obtain ⟨old, hold, hfe⟩ := hr'
        by_cases hc : ownedActive u.id old = true
        · rw [if_pos hc] at hfe
          rw [← hfe]
        · rw [if_neg hc] at hfe
          rw [← hfe] at htok ⊢
          have hor : old = r := eq_of_mem_of_token_eq hu hold hr htok
          rcases Bool.eq_false_or_eq_true old.is_revoked with hrev | hrev
          · exact hrev
          · exfalso
            exact hc ((ownedActive_iff u.id old).mpr
              ⟨by rw [hor, hruid], hrev⟩)
  · intro sub secret iat ttl n
    by_cases hn : n ≤ iat + ttl * 60 <;>
      simp [create_access_token, jwt_decode, hn]

/-- Witness for C9 on the concrete store: after the successful
change-password call, the user's pre-change refresh tokens no longer verify,
and a pre-change access token still decodes as characterized. -/
theorem change_password_spec_witness :
    (∀ r ∈ exDB9.refresh_tokens, r.user_id = exUser9.id →
      ∀ n, verify_refresh_token r.token exDB9after n = none) ∧
    (∀ (sub : Option String) (secret iat ttl n : Nat),
      jwt_decode (create_access_token sub none iat secret ttl) secret n =
        if n ≤ iat + ttl * 60 then
          some { sub := sub, exp := iat + ttl * 60, iat := iat,
                 type := "access" }
        else none) :=
  change_password_spec exUser9 exPD9 exDB9 10 1 cpMsg exDB9after
    (by decide) (by rfl)

/-! ## Claim C10 -/

/-- A decoded token whose subject is missing or names no stored user is
rejected with the 401 credentials error. -/
theorem get_current_user_401 (tok : AccessToken) (db : DB)
    (secret now : Nat) (claims : JWTClaims)
    (hdec : jwt_decode tok secret now = some claims)
    (hs : claims.sub = none ∨
      ∃ s, claims.sub = some s ∧ ∀ u ∈ db.users, u.username ≠ s) :
    get_current_user tok db secret now = .error credentials_exception := by
  unfold get_current_user
  simp only [hdec]
  cases hsub : claims.sub with
  | none => rfl
  | some s =>
    rcases hs with hnone | ⟨s', hs', hall⟩
    · rw [hsub] at hnone; exact Option.noConfusion hnone
    · rw [hsub] at hs'
      have hss : s = s' := Option.some.inj hs'
      subst hss
      have hfind : db.users.find? (fun u => u.username == s) = none := by
        rw [List.find?_eq_none]
        intro v hv hbeq
        exact hall v hv (beq_iff_eq.mp hbeq)
      simp only [hfind]

/-- C10: a correctly signed, unexpired bearer token is still rejected with
the 401 "Could not validate credentials" error when its `sub` claim is
missing or names a username with no stored user row; in particular, after
`delete_account` removes a user (usernames being unique), that user's
outstanding access tokens are rejected at this API even before expiry. -/
theorem get_current_user_reject_spec :
    (∀ (tok : AccessToken) (db : DB) (secret now : Nat) (claims : JWTClaims),
      jwt_decode tok secret now = some claims →
      (claims.sub = none ∨
        ∃ s, claims.sub = some s ∧ ∀ u ∈ db.users, u.username ≠ s) →
      get_current_user tok db secret now = .error credentials_exception) ∧
    (∀ (u : User) (db : DB) (tok : AccessToken)
        (secret now del_now : Nat) (claims : JWTClaims),
      (∀ v ∈ db.users, v.username = u.username → v = u) →
      jwt_decode tok secret now = some claims →
      claims.sub = some u.username →
      get_current_user tok (delete_account u db del_now).2 secret now =
        .error credentials_exception) := by
  constructor
  · exact get_current_user_401
  · intro u db tok secret now del_now claims huniq hdec hsub
    apply get_current_user_401 tok _ secret now claims hdec
    right
    refine ⟨u.username, hsub, ?_⟩
    intro v hv
    simp only [delete_account, List.mem_filter] at hv
    have hvmem : v ∈ db.users := hv.1
    have hvid : (v.id != u.id) = true := hv.2
    intro hname
    have hvu : v = u := huniq v hvmem hname
    rw [hvu] at hvid
    simp at hvid

/-- Witness for C10: a correctly signed unexpired token whose subject is
`ghost` is rejected over the store holding only `user9`, and `user9`'s own
token is rejected after the account is deleted. -/
theorem get_current_user_reject_spec_witness :
    get_current_user ghostToken
      { users := [exUser9], refresh_tokens := [] } 42 50 =
      .error credentials_exception ∧
    get_current_user user9Token
      (delete_account exUser9 { users := [exUser9], refresh_tokens := [] } 60).2
      42 50 = .error credentials_exception :=
  ⟨get_current_user_reject_spec.1 ghostToken
      { users := [exUser9], refresh_tokens := [] } 42 50
      { sub := some ("ghost"), exp := 100, iat := 0, type := "access" }
      (by rfl) (Or.inr ⟨("ghost"), rfl, by decide⟩),
    get_current_user_reject_spec.2 exUser9
      { users := [exUser9], refresh_tokens := [] } user9Token 42 50 60
      { sub := some ("user9"), exp := 100, iat := 0, type := "access" }
      (by decide) (by rfl) rfl⟩

end FastapiAuth
